import Mathlib

/-!
Shallow embedding of the plugin-sdk-go cache package (plugin/cache/cache.go)
and of the file helpers of the utils package (plugin/utils/file.go).

Filesystem interaction is modelled by an oracle record `OS` giving, for each
path, the outcome of the stat / mkdirAll / openFile / remove system calls.
Go error values are modelled by `FsError`; the package-level error type
InvalidCacheFileName is the `CacheError.invalidName` constructor, and a plain
filesystem error surfaced through the Go `error` interface is wrapped as
`CacheError.fsErr`.

The acquisition loop of LockCacheFile races against concurrent processes, so
the filesystem answers it sees are not a function of a single static oracle:
each loop iteration is given by a `LockStep` record holding the stat outcome
observed by doesExist and the outcome of the openExclusiveFile attempt of that
iteration; a run of the loop consumes a list of such iterations (an empty or
exhausted list means the loop is still spinning).

UnlockCacheFile sleeps and mutates the filesystem, so it is modelled over a
small mutable `World` (a clock, the set of existing paths, and a timestamped
log of the remove operations performed).

Mutual exclusion of concurrent acquirers (claim C1) is modelled as an
interleaving transition system `SysStep` over two acquirer processes whose
only primitives are the ones LockCacheFile uses: observing the marker file and
atomically creating it if absent, plus the removal done by the holder when it
releases.
-/

/-- Go error classification used by the cache and utils packages: os.IsNotExist
recognises `notExist`, os.IsExist recognises `exist`, and every other
filesystem error is `other` with an arbitrary code. -/
inductive FsError
  | notExist
  | exist
  | other (code : Nat)
deriving DecidableEq, Repr

/-- Errors returned through the Go error interface by the cache package:
either the package-level InvalidCacheFileName value produced by
isReservedName, or an underlying filesystem error. -/
inductive CacheError
  | invalidName
  | fsErr (e : FsError)
deriving DecidableEq, Repr

/-- Oracle for the filesystem system calls made by the code: the outcome of
os.Stat, os.MkdirAll, os.OpenFile and os.Remove on each path. `none` means
the call succeeded; open returns a file handle on success. -/
structure OS where
  stat : String → Option FsError
  mkdirAll : String → Option FsError
  openFile : String → Nat → Nat → Except FsError Nat
  remove : String → Option FsError

/-- Constant cacheDir of cache.go. -/
def cacheDir : String := "/var/cache/"

/-- Constant lockDir of cache.go. -/
def lockDir : String := "/var/cache/lock/"

/-- Constant filePerms of cache.go (0600 in Go octal notation). -/
def filePerms : Nat := 0o600

/-- Go os.O_RDWR on linux. -/
def O_RDWR : Nat := 2

/-- Go os.O_CREATE on linux. -/
def O_CREATE : Nat := 64

/-- Go os.O_EXCL on linux. -/
def O_EXCL : Nat := 128

/-- Go strings.HasSuffix, on the character sequence of the strings. -/
def hasSuffix (s suffix : String) : Bool :=
  List.isSuffixOf suffix.data s.data

/-- stripLeftSlash of cache.go: strings.TrimLeft(name, "/") removes every
leading character drawn from the cutset, here the single character slash. -/
def stripLeftSlash (name : String) : String :=
  String.mk (List.dropWhile (fun c => c = '/') name.data)

/-- isReservedName of cache.go: returns the InvalidCacheFileName error (whose
Go message calls the name lock reserved) when the name ends with the literal
suffix slash-lock, and nil otherwise. -/
def isReservedName (name : String) : Option CacheError :=
  if hasSuffix name "/lock" then some CacheError.invalidName else none

/-- Go filepath.Dir, simplified: everything up to the final separator (the Go
original also cleans the result). Both open helpers pass it to MkdirAll
identically, and no claim depends on its exact value. -/
def dirOf (p : String) : String :=
  match List.dropWhile (fun c => c ≠ '/') p.data.reverse with
  | [] => "."
  | _ :: r => String.mk r.reverse

/-- Path a cache-entry operation resolves a name to: cacheDir + stripLeftSlash(name). -/
def cachePath (name : String) : String := cacheDir ++ stripLeftSlash name

/-- Path a lock operation resolves a name to: lockDir + stripLeftSlash(name). -/
def lockPath (name : String) : String := lockDir ++ stripLeftSlash name

/-- Body of doesExist of cache.go as a function of the os.Stat outcome:
stat error recognised by os.IsNotExist gives (false, nil), any other stat
error is returned as (false, err), and stat success gives (true, nil). -/
def doesExistRes (st : Option FsError) : Bool × Option FsError :=
  match st with
  | some e => if e = FsError.notExist then (false, none) else (false, some e)
  | none => (true, none)

/-- doesExist of cache.go. -/
def doesExist (os : OS) (name : String) : Bool × Option FsError :=
  doesExistRes (os.stat name)

/-- open of cache.go (named openCore here because open is a Lean keyword):
stat the path; on stat error, rerun the existence check, create the missing
parent directories when the path simply does not exist, and propagate any
other error; finally perform os.OpenFile with the fixed filePerms. -/
def openCore (os : OS) (name : String) (flags : Nat) : Except FsError Nat :=
  match os.stat name with
  | none => os.openFile name flags filePerms
  | some _ =>
    match doesExist os name with
    | (false, none) =>
      match os.mkdirAll (dirOf name) with
      | some e => Except.error e
      | none => os.openFile name flags filePerms
    | (_, some e) => Except.error e
    | (true, none) => os.openFile name flags filePerms

/-- openFile of cache.go. -/
def openFile (os : OS) (name : String) : Except FsError Nat :=
  openCore os name (O_RDWR ||| O_CREATE)

/-- openExclusiveFile of cache.go. -/
def openExclusiveFile (os : OS) (name : String) : Except FsError Nat :=
  openCore os name (O_RDWR ||| O_CREATE ||| O_EXCL)

/-- OpenCacheFile of cache.go: reject reserved names, then open
cacheDir + stripLeftSlash(name) with read-write-create flags. -/
def OpenCacheFile (os : OS) (name : String) : Except CacheError Nat :=
  match isReservedName name with
  | some e => Except.error e
  | none =>
    match openFile os (cachePath name) with
    | Except.ok f => Except.ok f
    | Except.error e => Except.error (CacheError.fsErr e)

/-- RemoveCacheFile of cache.go: reject reserved names, then os.Remove the
resolved cache path. -/
def RemoveCacheFile (os : OS) (name : String) : Option CacheError :=
  match isReservedName name with
  | some e => some e
  | none =>
    match os.remove (cachePath name) with
    | some e => some (CacheError.fsErr e)
    | none => none

/-- CheckCacheFile of cache.go: returns doesExist on the resolved cache path
directly (the source performs no reserved-name validation here). -/
def CheckCacheFile (os : OS) (name : String) : Bool × Option FsError :=
  doesExist os (cachePath name)

/-- One iteration of the LockCacheFile acquisition loop, as observed by the
loop: the os.Stat outcome its doesExist call sees, and the outcome of its
openExclusiveFile attempt (none = the exclusive create succeeded). The
filesystem changes under concurrent processes, hence one record per
iteration rather than a single static oracle. -/
structure LockStep where
  statRes : Option FsError
  createRes : Option FsError
deriving DecidableEq, Repr

/-- The for loop of LockCacheFile of cache.go over a list of iteration
outcomes. An exhausted list models a loop still spinning (no return yet).
Per iteration: if doesExist gives (true, nil) the loop sleeps and retries;
a doesExist error returns (false, err); otherwise the exclusive create is
attempted, success closes the handle and returns (true, nil), an error
recognised by os.IsExist retries, and any other error returns (false, err). -/
def lockLoop : List LockStep → Option (Bool × Option CacheError)
  | [] => none
  | s :: rest =>
    match doesExistRes s.statRes with
    | (true, none) => lockLoop rest
    | (_, some e) => some (false, some (CacheError.fsErr e))
    | (false, none) =>
      match s.createRes with
      | none => some (true, none)
      | some e =>
        if e = FsError.exist then lockLoop rest
        else some (false, some (CacheError.fsErr e))

/-- LockCacheFile of cache.go: rebinds the name to
lockDir + stripLeftSlash(name) (returned as the first component: the path all
stat and exclusive-create operations of the loop target), then runs the
acquisition loop. -/
def LockCacheFile (name : String) (trace : List LockStep) :
    String × Option (Bool × Option CacheError) :=
  (lockDir ++ stripLeftSlash name, lockLoop trace)

/-- An iteration of the acquisition loop that the code treats as expected
contention: either doesExist reported the marker present with no error, or
the marker was absent but the exclusive create failed with an error
recognised by os.IsExist (the create race was lost). -/
def contentionStep (s : LockStep) : Bool :=
  decide (doesExistRes s.statRes = (true, none)) ||
    (decide (doesExistRes s.statRes = (false, none)) &&
      decide (s.createRes = some FsError.exist))

/-- Mutable state for UnlockCacheFile: a clock advanced by time.Sleep, the
set of existing marker paths, and a timestamped log of the os.Remove
operations performed (time of the call, path removed). -/
structure World where
  clock : Nat
  fs : List String
  log : List (Nat × String)
deriving DecidableEq, Repr

/-- time.Sleep(d): advances the clock, touches nothing else. -/
def sleepW (w : World) (d : Nat) : World :=
  { w with clock := w.clock + d }

/-- os.Remove(p) over the World state: succeeds and deletes the path when it
exists, otherwise fails with a not-exist error; either way the operation is
logged at the current clock. -/
def removeW (w : World) (p : String) : World × Option FsError :=
  if p ∈ w.fs then
    ({ w with fs := w.fs.erase p, log := w.log ++ [(w.clock, p)] }, none)
  else
    ({ w with log := w.log ++ [(w.clock, p)] }, some FsError.notExist)

/-- UnlockCacheFile of cache.go: sleep for the timeout when one is supplied,
then os.Remove the resolved lock path; a removal error yields (false, err),
success yields (true, nil). -/
def UnlockCacheFile (w : World) (name : String) (timeout : Option Nat) :
    World × (Bool × Option FsError) :=
  let w1 := match timeout with
    | some d => sleepW w d
    | none => w
  match removeW w1 (lockDir ++ stripLeftSlash name) with
  | (w2, some e) => (w2, (false, some e))
  | (w2, none) => (w2, (true, none))

/-- Local state of one acquirer running LockCacheFile: still inside the
acquisition loop, or returned successfully believing it holds the lock. -/
inductive AcqState
  | trying
  | holding
deriving DecidableEq, Repr

/-- Global state of two concurrent LockCacheFile invocations on the same
name: whether the marker file exists, and each acquirer state. -/
structure LockSys where
  marker : Bool
  p1 : AcqState
  p2 : AcqState
deriving DecidableEq, Repr

/-- Initial state: marker absent, both invocations in their loops. -/
def sysInit : LockSys :=
  { marker := false, p1 := AcqState.trying, p2 := AcqState.trying }

/-- Interleaving steps of the two acquirers, using exactly the primitives of
LockCacheFile and UnlockCacheFile: an atomic exclusive create that succeeds
only when the marker is absent (O_EXCL open), an observation step when the
marker is present (doesExist true, or a lost create race), and removal of the
marker by the current holder (release). -/
inductive SysStep : LockSys → LockSys → Prop
  | createWin1 (m : LockSys) (h : m.p1 = AcqState.trying) (hm : m.marker = false) :
      SysStep m { m with marker := true, p1 := AcqState.holding }
  | observeHeld1 (m : LockSys) (h : m.p1 = AcqState.trying) (hm : m.marker = true) :
      SysStep m m
  | release1 (m : LockSys) (h : m.p1 = AcqState.holding) :
      SysStep m { m with marker := false, p1 := AcqState.trying }
  | createWin2 (m : LockSys) (h : m.p2 = AcqState.trying) (hm : m.marker = false) :
      SysStep m { m with marker := true, p2 := AcqState.holding }
  | observeHeld2 (m : LockSys) (h : m.p2 = AcqState.trying) (hm : m.marker = true) :
      SysStep m m
  | release2 (m : LockSys) (h : m.p2 = AcqState.holding) :
      SysStep m { m with marker := false, p2 := AcqState.trying }

/-- States reachable from the initial state by interleaving. -/
def SysReach (s : LockSys) : Prop :=
  Relation.ReflTransGen SysStep sysInit s

/-- Invariant: a holder implies the marker exists, and the two acquirers are
never both holders. -/
def SysInv (s : LockSys) : Prop :=
  (s.p1 = AcqState.holding → s.marker = true) ∧
    (s.p2 = AcqState.holding → s.marker = true) ∧
      ¬(s.p1 = AcqState.holding ∧ s.p2 = AcqState.holding)

/-- Final path segment of a name: the text after the last separator (the
whole name when it has no separator). Used to state the reserved-name claim,
which speaks of the final path segment. -/
def segsAux : List Char → List Char → List (List Char)
  | [], cur => [cur.reverse]
  | c :: cs, cur =>
    if c = '/' then cur.reverse :: segsAux cs []
    else segsAux cs (c :: cur)

/-- Final path segment of a string, via segsAux. -/
def lastSegment (s : String) : String :=
  String.mk ((segsAux s.data []).getLastD [])

namespace Utils

/-- DoesFileExist of utils/file.go. -/
def DoesFileExist (os : OS) (name : String) : Bool × Option FsError :=
  match os.stat name with
  | some e => if e = FsError.notExist then (false, none) else (false, some e)
  | none => (true, none)

/-- OpenFile of utils/file.go: identical logic to open of cache.go, with the
permissions supplied by the caller instead of the fixed filePerms. -/
def OpenFile (os : OS) (name : String) (flags : Nat) (perms : Nat) :
    Except FsError Nat :=
  match os.stat name with
  | none => os.openFile name flags perms
  | some _ =>
    match DoesFileExist os name with
    | (false, none) =>
      match os.mkdirAll (dirOf name) with
      | some e => Except.error e
      | none => os.openFile name flags perms
    | (_, some e) => Except.error e
    | (true, none) => os.openFile name flags perms

end Utils

/-- Filesystem oracle on which every call succeeds (paths exist, opens yield
handle 0). -/
def osAllOk : OS :=
  { stat := fun _ => none
    mkdirAll := fun _ => none
    openFile := fun _ _ _ => Except.ok 0
    remove := fun _ => none }

/-- Filesystem oracle on which stat always fails with a non-not-exist error. -/
def osStatFault : OS :=
  { stat := fun _ => some (FsError.other 5)
    mkdirAll := fun _ => none
    openFile := fun _ _ _ => Except.ok 0
    remove := fun _ => none }

/-! Helper lemmas. -/

theorem head?_dropWhile_not {α : Type} (p : α → Bool) (l : List α) (c : α)
    (h : (l.dropWhile p).head? = some c) : p c = false := by
  induction l with
  | nil => simp [List.dropWhile] at h
  | cons a l ih =>
    by_cases hp : p a
    · rw [List.dropWhile_cons_of_pos hp] at h
      exact ih h
    · rw [List.dropWhile_cons_of_neg (by simpa using hp)] at h
      rw [show (a :: l).head? = some a from rfl] at h
      injection h with h
      subst h
      simpa using hp

/-! Claim theorems. -/

/-- Claim C9: every cache-entry operation resolves a name to
cacheDir + stripLeftSlash(name) and every lock operation to
lockDir + stripLeftSlash(name), where lockDir is the lock subtree of the
cache root; stripLeftSlash removes exactly the maximal run of leading
separators and applies no other transformation: the original name is the
stripped name preceded by separators only, and the stripped name does not
begin with a separator. -/
theorem path_resolution (name : String) :
    lockDir = cacheDir ++ "lock/" ∧
    cachePath name = cacheDir ++ stripLeftSlash name ∧
    lockPath name = cacheDir ++ "lock/" ++ stripLeftSlash name ∧
    name.data = name.data.takeWhile (fun c => c = '/') ++ (stripLeftSlash name).data ∧
    (∀ c ∈ name.data.takeWhile (fun c => decide (c = '/')), c = '/') ∧
    (∀ c, (stripLeftSlash name).data.head? = some c → c ≠ '/') := by
  refine ⟨by decide, rfl, ?_, ?_, ?_, ?_⟩
  · show lockDir ++ stripLeftSlash name = cacheDir ++ "lock/" ++ stripLeftSlash name
    have h : lockDir = cacheDir ++ "lock/" := by decide
    rw [h]
  · show name.data = name.data.takeWhile (fun c => decide (c = '/')) ++
      (List.dropWhile (fun c => decide (c = '/')) name.data)
    rw [List.takeWhile_append_dropWhile]
  · intro c hc
    have := List.mem_takeWhile_imp hc
    simpa using this
  · intro c hc
    have := head?_dropWhile_not (fun c => decide (c = '/')) name.data c hc
    simpa using this

/-- Claim C9 witness: instantiation at a concrete name with two leading
separators. -/
theorem path_resolution_witness : ('a' : Char) ≠ '/' :=
  (path_resolution "//a").2.2.2.2.2 'a' (by decide)

/-- Claim C6: the existence check is three-way. On the resolved cache path,
a stat failure recognised as not-exist yields (false, nil); any other stat
failure yields (false, err) with that error; stat success yields (true, nil);
and the check never returns true together with an error. -/
theorem checkCacheFile_three_way (os : OS) (name : String) :
    (os.stat (cachePath name) = some FsError.notExist →
      CheckCacheFile os name = (false, none)) ∧
    (∀ e : FsError, os.stat (cachePath name) = some e → e ≠ FsError.notExist →
      CheckCacheFile os name = (false, some e)) ∧
    (os.stat (cachePath name) = none → CheckCacheFile os name = (true, none)) ∧
    (∀ e : FsError, CheckCacheFile os name ≠ (true, some e)) := by
  refine ⟨?_, ?_, ?_, ?_⟩
  · intro h
    simp [CheckCacheFile, doesExist, doesExistRes, h]
  · intro e h hne
    simp [CheckCacheFile, doesExist, doesExistRes, h, hne]
  · intro h
    simp [CheckCacheFile, doesExist, doesExistRes, h]
  · intro e
    unfold CheckCacheFile doesExist doesExistRes
    cases h : os.stat (cachePath name) with
    | none => simp
    | some e' =>
      by_cases he : e' = FsError.notExist <;> simp [he]

/-- Claim C6 witness: on the all-ok filesystem the check returns
(true, nil). -/
theorem checkCacheFile_three_way_witness : CheckCacheFile osAllOk "x" = (true, none) :=
  (checkCacheFile_three_way osAllOk "x").2.2.1 rfl

/-- Claim C10: the private helpers of the cache package coincide with the
public utils primitives: open with any flags equals utils.OpenFile at
permissions 0600 (0o600), and doesExist equals utils.DoesFileExist, on every
filesystem and path. -/
theorem cache_helpers_refine_utils (os : OS) (name : String) (flags : Nat) :
    openCore os name flags = Utils.OpenFile os name flags 0o600 ∧
    doesExist os name = Utils.DoesFileExist os name := by
  have hd : doesExist os name = Utils.DoesFileExist os name := by
    unfold doesExist doesExistRes Utils.DoesFileExist
    rfl
  refine ⟨?_, hd⟩
  unfold openCore Utils.OpenFile
  rw [hd]
  rfl

/-- Claim C5: evaluation of the reserved-name predicate at the bare name
lock: its final path segment is lock, yet isReservedName accepts it (the
suffix test only matches names containing a separator before lock), although
the cache path it resolves to is the lock subtree root itself. -/
theorem isReservedName_accepts_bare_lock :
    lastSegment "lock" = "lock" ∧
    isReservedName "lock" = none ∧
    cachePath "lock" = "/var/cache/lock" := by
  refine ⟨by decide, by decide, by decide⟩

/-- Classification of one acquisition-loop iteration: a contention iteration
passes control to the rest of the loop; otherwise the iteration returns, with
success exactly when the marker was absent and the exclusive create
succeeded, and with the (fsErr-wrapped) first fault otherwise. -/
theorem lockLoop_cons_classify (s : LockStep) (rest : List LockStep) :
    (contentionStep s = true ∧ lockLoop (s :: rest) = lockLoop rest) ∨
    (contentionStep s = false ∧ doesExistRes s.statRes = (false, none) ∧
      s.createRes = none ∧ lockLoop (s :: rest) = some (true, none)) ∨
    (contentionStep s = false ∧ ∃ e : FsError,
      ((doesExistRes s.statRes).2 = some e ∨
        (doesExistRes s.statRes = (false, none) ∧ s.createRes = some e ∧
          e ≠ FsError.exist)) ∧
      lockLoop (s :: rest) = some (false, some (CacheError.fsErr e))) := by
  rcases s with ⟨st, cr⟩
  cases st with
  | none =>
    exact Or.inl ⟨by simp [contentionStep, doesExistRes], by simp [lockLoop, doesExistRes]⟩
  | some e =>
    by_cases he : e = FsError.notExist
    · subst he
      cases cr with
      | none =>
        refine Or.inr (Or.inl ⟨?_, by simp [doesExistRes], rfl, ?_⟩)
        · simp [contentionStep, doesExistRes]
        · simp [lockLoop, doesExistRes]
      | some ce =>
        by_cases hce : ce = FsError.exist
        · subst hce
          refine Or.inl ⟨?_, ?_⟩
          · simp [contentionStep, doesExistRes]
          · simp [lockLoop, doesExistRes]
        · refine Or.inr (Or.inr ⟨?_, ce, Or.inr ⟨by simp [doesExistRes], rfl, hce⟩, ?_⟩)
          · simp [contentionStep, doesExistRes, hce]
          · simp [lockLoop, doesExistRes, hce]
    · refine Or.inr (Or.inr ⟨?_, e, Or.inl (by simp [doesExistRes, he]), ?_⟩)
      · simp [contentionStep, doesExistRes, he]
      · simp [lockLoop, doesExistRes, he]

/-- The loop never returns a silent failure or a success paired with an
error: a returned result is success with nil error, or false with an
fsErr-wrapped filesystem error. -/
theorem lockLoop_never_silent (trace : List LockStep) :
    ∀ r, lockLoop trace = some r →
      r = (true, none) ∨ ∃ e : FsError, r = (false, some (CacheError.fsErr e)) := by
  induction trace with
  | nil => intro r h; simp [lockLoop] at h
  | cons s rest ih =>
    intro r h
    rcases lockLoop_cons_classify s rest with ⟨_, heq⟩ | ⟨_, _, _, heq⟩ | ⟨_, e, _, heq⟩
    · rw [heq] at h
      exact ih r h
    · rw [heq] at h
      injection h with h
      exact Or.inl h.symm
    · rw [heq] at h
      injection h with h
      exact Or.inr ⟨e, h.symm⟩

/-- A trace of contention iterations only keeps the loop spinning: nothing is
returned, and in particular no contention outcome is ever surfaced. -/
theorem lockLoop_spin (trace : List LockStep)
    (h : ∀ t ∈ trace, contentionStep t = true) : lockLoop trace = none := by
  induction trace with
  | nil => rfl
  | cons s rest ih =>
    rcases lockLoop_cons_classify s rest with ⟨_, heq⟩ | ⟨hc, _⟩ | ⟨hc, _⟩
    · rw [heq]
      exact ih fun t ht => h t (List.mem_cons_of_mem s ht)
    · exact absurd (h s (List.mem_cons_self s rest)) (by simp [hc])
    · exact absurd (h s (List.mem_cons_self s rest)) (by simp [hc])

/-- A surfaced error is the first non-contention outcome of the trace: every
earlier iteration was expected contention, and the error is the one reported
there by the existence check or by a non-IsExist failure of the exclusive
create, unmodified. -/
theorem lockLoop_fault_shape (trace : List LockStep) :
    ∀ e : FsError, lockLoop trace = some (false, some (CacheError.fsErr e)) →
      ∃ pre s rest, trace = pre ++ s :: rest ∧
        (∀ t ∈ pre, contentionStep t = true) ∧
        ((doesExistRes s.statRes).2 = some e ∨
          (doesExistRes s.statRes = (false, none) ∧ s.createRes = some e ∧
            e ≠ FsError.exist)) := by
  induction trace with
  | nil => intro e h; simp [lockLoop] at h
  | cons s rest ih =>
    intro e h
    rcases lockLoop_cons_classify s rest with ⟨hc, heq⟩ | ⟨_, _, _, heq⟩ | ⟨_, e', he', heq⟩
    · rw [heq] at h
      obtain ⟨pre, s', rest', h1, h2, h3⟩ := ih e h
      refine ⟨s :: pre, s', rest', by rw [h1]; rfl, ?_, h3⟩
      intro t ht
      rcases List.mem_cons.mp ht with ht | ht
      · subst ht; exact hc
      · exact h2 t ht
    · rw [heq] at h
      simp at h
    · rw [heq] at h
      have he : e' = e := by
        injection h with h
        injection h with h1 h2
        injection h2 with h2
        injection h2 with h2
      subst he
      exact ⟨[], s, rest, rfl, by simp, he'⟩

/-- A successful return means the winning iteration saw the marker absent and
its exclusive create succeeded, after nothing but contention iterations. -/
theorem lockLoop_success_shape (trace : List LockStep) :
    lockLoop trace = some (true, none) →
      ∃ pre s rest, trace = pre ++ s :: rest ∧
        (∀ t ∈ pre, contentionStep t = true) ∧
        doesExistRes s.statRes = (false, none) ∧ s.createRes = none := by
  induction trace with
  | nil => intro h; simp [lockLoop] at h
  | cons s rest ih =>
    intro h
    rcases lockLoop_cons_classify s rest with ⟨hc, heq⟩ | ⟨_, hst, hcr, heq⟩ | ⟨_, e', _, heq⟩
    · rw [heq] at h
      obtain ⟨pre, s', rest', h1, h2, h3⟩ := ih h
      refine ⟨s :: pre, s', rest', by rw [h1]; rfl, ?_, h3⟩
      intro t ht
      rcases List.mem_cons.mp ht with ht | ht
      · subst ht; exact hc
      · exact h2 t ht
    · exact ⟨[], s, rest, rfl, by simp, hst, hcr⟩
    · rw [heq] at h
      simp at h

/-- Claim C2: a returned LockCacheFile result is either success (true, nil),
or false together with the first non-contention filesystem error of the run,
surfaced unmodified (fsErr-wrapped Go error value) after nothing but expected
contention iterations; a run consisting only of expected contention never
returns (contention is silently retried, never surfaced); success is returned
exactly by winning the exclusive create; and no return is false-without-error
or true-with-error. -/
theorem lockCacheFile_error_contract (name : String) (trace : List LockStep) :
    (∀ r, (LockCacheFile name trace).2 = some r →
      r = (true, none) ∨ ∃ e : FsError, r = (false, some (CacheError.fsErr e))) ∧
    (∀ e : FsError,
      (LockCacheFile name trace).2 = some (false, some (CacheError.fsErr e)) →
      ∃ pre s rest, trace = pre ++ s :: rest ∧
        (∀ t ∈ pre, contentionStep t = true) ∧
        ((doesExistRes s.statRes).2 = some e ∨
          (doesExistRes s.statRes = (false, none) ∧ s.createRes = some e ∧
            e ≠ FsError.exist))) ∧
    ((∀ t ∈ trace, contentionStep t = true) → (LockCacheFile name trace).2 = none) ∧
    ((LockCacheFile name trace).2 = some (true, none) →
      ∃ pre s rest, trace = pre ++ s :: rest ∧
        (∀ t ∈ pre, contentionStep t = true) ∧
        doesExistRes s.statRes = (false, none) ∧ s.createRes = none) := by
  refine ⟨?_, ?_, ?_, ?_⟩
  · exact fun r h => lockLoop_never_silent trace r h
  · exact fun e h => lockLoop_fault_shape trace e h
  · exact fun h => lockLoop_spin trace h
  · exact fun h => lockLoop_success_shape trace h

/-- Claim C2 witness: a run whose single iteration sees the marker absent and
wins the create returns success with nil error. -/
theorem lockCacheFile_error_contract_witness :
    ((true : Bool), (none : Option CacheError)) = (true, none) ∨
      ∃ e : FsError,
        ((true : Bool), (none : Option CacheError)) =
          (false, some (CacheError.fsErr e)) :=
  (lockCacheFile_error_contract "x"
    [{ statRes := some FsError.notExist, createRes := none }]).1 (true, none) rfl

/-- Claim C3 counterexample: on the reserved name a/lock, CheckCacheFile does
not return an invalid-name failure and does reach the filesystem: its result
is the stat outcome of the resolved path, so it differs between a filesystem
on which the path exists and one on which stat faults. -/
theorem checkCacheFile_reserved_reaches_fs :
    CheckCacheFile osAllOk "a/lock" = (true, none) ∧
    CheckCacheFile osStatFault "a/lock" = (false, some (FsError.other 5)) := by
  constructor
  · rfl
  · rfl

/-- Claim C3 (amended): for every name ending in the reserved suffix, Open
and Remove return the invalid-name failure with no filesystem access (their
result is the same on every filesystem oracle), while the existence check
performs no reserved-name validation: it consults the filesystem and returns
the three-way stat outcome of the resolved cache path. -/
theorem reserved_name_open_remove (os : OS) (name : String)
    (h : hasSuffix name "/lock" = true) :
    OpenCacheFile os name = Except.error CacheError.invalidName ∧
    RemoveCacheFile os name = some CacheError.invalidName ∧
    CheckCacheFile os name = doesExistRes (os.stat (cachePath name)) := by
  refine ⟨?_, ?_, rfl⟩
  · simp [OpenCacheFile, isReservedName, h]
  · simp [RemoveCacheFile, isReservedName, h]

/-- Claim C3 witness: instantiation at the reserved name a/lock. -/
theorem reserved_name_open_remove_witness :
    OpenCacheFile osAllOk "a/lock" = Except.error CacheError.invalidName :=
  (reserved_name_open_remove osAllOk "a/lock" (by decide)).1

/-- Claim C4 counterexample: LockCacheFile does not apply the reserved-name
rule: on the reserved name a/lock it proceeds to the filesystem (targeting
the resolved lock path) and, when the marker is absent and the create wins,
returns success rather than any invalid-name failure. -/
theorem lockCacheFile_reserved_not_rejected :
    LockCacheFile "a/lock" [{ statRes := some FsError.notExist, createRes := none }] =
      ("/var/cache/lock/a/lock", some (true, none)) := by
  decide

/-- Claim C4 (amended): LockCacheFile applies only the leading-separator
stripping when resolving the lock path (every operation of the loop targets
lockDir + stripLeftSlash(name), for every name including reserved ones), and
it never returns the invalid-name failure: any error it surfaces is a
wrapped filesystem error. -/
theorem lockCacheFile_no_reserved_check (name : String) (trace : List LockStep) :
    (LockCacheFile name trace).1 = lockDir ++ stripLeftSlash name ∧
    (∀ b ce, (LockCacheFile name trace).2 = some (b, some ce) →
      ∃ e : FsError, ce = CacheError.fsErr e) := by
  refine ⟨rfl, ?_⟩
  intro b ce h
  rcases lockLoop_never_silent trace (b, some ce) h with h' | ⟨e, h'⟩
  · exact absurd h' (by simp)
  · refine ⟨e, ?_⟩
    injection h' with h1 h2
    injection h2 with h2
  

/-- Claim C4 witness: a run that faults at the existence check surfaces the
wrapped filesystem error, never the invalid-name value. -/
theorem lockCacheFile_no_reserved_check_witness :
    ∃ e : FsError, CacheError.fsErr (FsError.other 7) = CacheError.fsErr e :=
  (lockCacheFile_no_reserved_check "x"
    [{ statRes := some (FsError.other 7), createRes := none }]).2 false
    (CacheError.fsErr (FsError.other 7)) rfl

/-- Claim C7: releasing a lock whose marker path does not exist fails with
the filesystem error of the removal (false together with the not-exist
error) — a double release never silently succeeds — and UnlockCacheFile
returns true exactly when the marker removal succeeds, which is also exactly
when no error is returned. -/
theorem unlockCacheFile_release_contract (w : World) (name : String)
    (timeout : Option Nat) :
    ((lockDir ++ stripLeftSlash name) ∉ w.fs →
      (UnlockCacheFile w name timeout).2 = (false, some FsError.notExist)) ∧
    ((UnlockCacheFile w name timeout).2.1 = true ↔
      (lockDir ++ stripLeftSlash name) ∈ w.fs) ∧
    ((UnlockCacheFile w name timeout).2.1 = true ↔
      (UnlockCacheFile w name timeout).2.2 = none) := by
  by_cases hp : (lockDir ++ stripLeftSlash name) ∈ w.fs <;>
    cases timeout <;>
      simp [UnlockCacheFile, removeW, sleepW, hp]

/-- Claim C7 witness: releasing on an empty filesystem fails with the
not-exist filesystem error. -/
theorem unlockCacheFile_release_contract_witness :
    (UnlockCacheFile { clock := 0, fs := [], log := [] } "x" none).2 =
      (false, some FsError.notExist) :=
  (unlockCacheFile_release_contract { clock := 0, fs := [], log := [] } "x" none).1
    (by simp)

/-- Claim C8: with a supplied delay, the single removal operation of
UnlockCacheFile is performed at time clock + delay — the suspension for the
full delay strictly precedes the marker removal, and the filesystem (hence
the marker) is untouched by the sleep, so the lock cannot be observed free
before the delay has elapsed; with no delay the removal is performed
immediately, at the unchanged clock. -/
theorem unlockCacheFile_delay_before_remove (w : World) (name : String) (d : Nat) :
    (UnlockCacheFile w name (some d)).1.log =
      w.log ++ [(w.clock + d, lockDir ++ stripLeftSlash name)] ∧
    (UnlockCacheFile w name (some d)).1.clock = w.clock + d ∧
    (sleepW w d).fs = w.fs ∧
    (UnlockCacheFile w name none).1.log =
      w.log ++ [(w.clock, lockDir ++ stripLeftSlash name)] := by
  by_cases hp : (lockDir ++ stripLeftSlash name) ∈ w.fs <;>
    simp [UnlockCacheFile, removeW, sleepW, hp]

/-- One step of the two-acquirer interleaving preserves the invariant. -/
theorem sysInv_step {a b : LockSys} (inv : SysInv a) (h : SysStep a b) :
    SysInv b := by
  obtain ⟨h1, h2, h12⟩ := inv
  cases h with
  | createWin1 hp hm =>
    refine ⟨fun _ => rfl, fun _ => rfl, ?_⟩
    rintro ⟨-, hp2⟩
    rw [h2 hp2] at hm
    exact Bool.noConfusion hm
  | observeHeld1 hp hm => exact ⟨h1, h2, h12⟩
  | release1 hp =>
    refine ⟨?_, ?_, ?_⟩
    · intro hh
      exact AcqState.noConfusion hh
    · intro hh
      exact absurd ⟨hp, hh⟩ h12
    · rintro ⟨hh, -⟩
      exact AcqState.noConfusion hh
  | createWin2 hp hm =>
    refine ⟨fun _ => rfl, fun _ => rfl, ?_⟩
    rintro ⟨hp1, -⟩
    rw [h1 hp1] at hm
    exact Bool.noConfusion hm
  | observeHeld2 hp hm => exact ⟨h1, h2, h12⟩
  | release2 hp =>
    refine ⟨?_, ?_, ?_⟩
    · intro hh
      exact absurd ⟨hh, hp⟩ h12
    · intro hh
      exact AcqState.noConfusion hh
    · rintro ⟨-, hh⟩
      exact AcqState.noConfusion hh

/-- The invariant holds in every reachable state. -/
theorem sysInv_reach {s : LockSys} (h : SysReach s) : SysInv s := by
  induction h with
  | refl => exact ⟨fun h => absurd h (by decide), fun h => absurd h (by decide),
      fun h => absurd h.1 (by decide)⟩
  | tail hab hbc ih => exact sysInv_step ih hbc

/-- Claim C1: two concurrent invocations of the acquisition loop on the same
name are mutually exclusive: in every state reachable by interleaving their
marker observations, atomic exclusive creates and holder releases, at most
one of the two has successfully created the marker and so believes it holds
the lock — the exclusive create, which succeeds only when the marker is
absent, is the sole serialization primitive. -/
theorem lock_mutual_exclusion (s : LockSys) (h : SysReach s) :
    ¬(s.p1 = AcqState.holding ∧ s.p2 = AcqState.holding) :=
  (sysInv_reach h).2.2

/-- Claim C1 witness: the state in which the first acquirer has won the
exclusive create is reachable, and there the two acquirers are not both
holders. -/
theorem lock_mutual_exclusion_witness :
    ¬(AcqState.holding = AcqState.holding ∧ AcqState.trying = AcqState.holding) :=
  lock_mutual_exclusion
    { marker := true, p1 := AcqState.holding, p2 := AcqState.trying }
    (Relation.ReflTransGen.single (SysStep.createWin1 sysInit rfl rfl))
